import Mathlib

/-!
Verification of the secret synchronization engine of `secret-sync`.

The Rust sources are shallowly embedded: pure logic becomes Lean functions,
the capability traits (`SecretManager`, `FileSystem`) become records of
functions, the AWS SDK client becomes a record of state-transition functions,
and every engine operation additionally returns the list of capability calls
it performed, so that sequencing and fail-fast behaviour are visible in the
model.  Rust `String` values are modelled by their UTF-8 byte sequences
(`List Nat`, each entry a byte), which is exactly the representation Rust
uses; `Vec<u8>` is likewise `List Nat`.
-/

set_option maxHeartbeats 1000000

/-- Model of `std::path::PathBuf` restricted to the shapes the engine deals
with: an absolute flag plus a list of components.  `src/pull.rs` /
`src/push.rs` only query `is_absolute` and `join`; `src/fs/real.rs` only
queries `parent`. -/
structure PathBuf where
  absolute : Bool
  components : List String
deriving DecidableEq, Repr

/-- Rust `Path::is_absolute`. -/
def PathBuf.is_absolute (p : PathBuf) : Bool := p.absolute

/-- Rust `Path::join` for the case analyses the engine performs: joining a
relative path appends its components; joining an absolute path replaces the
base entirely. -/
def PathBuf.join (base p : PathBuf) : PathBuf :=
  if p.absolute then p
  else { absolute := base.absolute, components := base.components ++ p.components }

/-- Rust `Path::parent`: `None` for a root path (absolute, no components)
and for the empty relative path; otherwise the path with its last component
dropped. -/
def PathBuf.parent (p : PathBuf) : Option PathBuf :=
  match p.components with
  | [] => none
  | _ => some { absolute := p.absolute, components := p.components.dropLast }

/-- Model of `eyre::Report` values as produced by the code.  Each constructor
records the producing construct: `message` for an `eyre::bail!` with an
ad-hoc message, `notFound` for the dedicated not-found `bail!` taken when the
backend reports its distinguished resource-not-found condition
(`src/secret/aws.rs` line 80), `report` for `eyre::Report::new(underlying)`
wrapping an SDK/IO error, and `context` for a `.context(...)` annotation
layered on an inner error. -/
inductive SyncError where
  | message (msg : String)
  | notFound (msg : String)
  | report (msg : String)
  | context (ctx : String) (inner : SyncError)
deriving DecidableEq, Repr

/-- Whether an error carries a context annotation at its head. -/
def SyncError.isContext : SyncError → Bool
  | .context _ _ => true
  | _ => false

/-- The secret value model from `src/secret/mod.rs`: either UTF-8 text or raw
binary.  The `String` payload is the string's UTF-8 byte sequence. -/
inductive Secret where
  | String (value : List Nat)
  | Binary (items : List Nat)
deriving DecidableEq, Repr

/-- Modelled from the spec: `Secret::as_bytes`, called at `src/pull.rs` line
19, is declared in a part of the repository that is not under `src/`.  Spec
section 4.3 fixes its behaviour: Text maps to its UTF-8 encoding, Binary is
used as-is.  With strings modelled by their UTF-8 bytes both cases return the
payload. -/
def Secret.as_bytes : Secret → List Nat
  | .String value => value
  | .Binary items => items

/-- Secret metadata from `src/config.rs` (`SecretMetadata`): optional
description and optional tags (the `HashMap<String, String>` modelled as an
association list). -/
structure SecretMetadata where
  description : Option String
  tags : Option (List (String × String))
deriving DecidableEq, Repr

/-- A declared sync entry from `src/config.rs` (`SecretFile`): local path,
secret name, and metadata. -/
structure SecretFile where
  path : PathBuf
  secret : String
  metadata : SecretMetadata
deriving DecidableEq, Repr

/-- Whether a byte is a UTF-8 continuation byte (`0x80..=0xBF`). -/
def isUtf8Cont (b : Nat) : Bool := 0x80 ≤ b && b ≤ 0xBF

/-- UTF-8 validity of a byte sequence, following the table enforced by Rust
`String::from_utf8` (the Unicode definition: no overlongs, no surrogates,
max `U+10FFFF`). -/
def isValidUtf8 : List Nat → Bool
  | [] => true
  | b :: rest =>
    if b ≤ 0x7F then isValidUtf8 rest
    else if 0xC2 ≤ b && b ≤ 0xDF then
      match rest with
      | b1 :: rest1 => isUtf8Cont b1 && isValidUtf8 rest1
      | [] => false
    else if b == 0xE0 then
      match rest with
      | b1 :: b2 :: rest2 =>
        (0xA0 ≤ b1 && b1 ≤ 0xBF) && isUtf8Cont b2 && isValidUtf8 rest2
      | _ => false
    else if (0xE1 ≤ b && b ≤ 0xEC) || b == 0xEE || b == 0xEF then
      match rest with
      | b1 :: b2 :: rest2 => isUtf8Cont b1 && isUtf8Cont b2 && isValidUtf8 rest2
      | _ => false
    else if b == 0xED then
      match rest with
      | b1 :: b2 :: rest2 =>
        (0x80 ≤ b1 && b1 ≤ 0x9F) && isUtf8Cont b2 && isValidUtf8 rest2
      | _ => false
    else if b == 0xF0 then
      match rest with
      | b1 :: b2 :: b3 :: rest3 =>
        (0x90 ≤ b1 && b1 ≤ 0xBF) && isUtf8Cont b2 && isUtf8Cont b3 && isValidUtf8 rest3
      | _ => false
    else if 0xF1 ≤ b && b ≤ 0xF3 then
      match rest with
      | b1 :: b2 :: b3 :: rest3 =>
        isUtf8Cont b1 && isUtf8Cont b2 && isUtf8Cont b3 && isValidUtf8 rest3
      | _ => false
    else if b == 0xF4 then
      match rest with
      | b1 :: b2 :: b3 :: rest3 =>
        (0x80 ≤ b1 && b1 ≤ 0x8F) && isUtf8Cont b2 && isUtf8Cont b3 && isValidUtf8 rest3
      | _ => false
    else false

/-- Classification of file bytes at `src/push.rs` lines 24-27:
`String::from_utf8(value)` keeps the exact bytes on success (a Rust string is
its UTF-8 bytes) and `error.into_bytes()` recovers the exact same bytes on
failure, so both branches carry `value` unchanged and only the tag differs. -/
def secretOfFileBytes (value : List Nat) : Secret :=
  if isValidUtf8 value then Secret.String value else Secret.Binary value

deriving instance DecidableEq for Except

/-- A recorded invocation against the `SecretManager` / `FileSystem`
capabilities used by the pull and push engines. -/
inductive Call where
  | get_secret (name : String)
  | set_secret (name : String) (value : Secret) (metadata : SecretMetadata)
  | read_file (path : PathBuf)
  | write_file (path : PathBuf) (bytes : List Nat)
deriving DecidableEq, Repr

/-- The capability environment handed to the engines: the `SecretManager`
operations (`src/secret/mod.rs`) and the `FileSystem` operations
(`src/fs/mod.rs`), each modelled as a function returning a result. -/
structure SyncEnv where
  get_secret : String → Except SyncError Secret
  set_secret : String → Secret → SecretMetadata → Except SyncError Unit
  read_file : PathBuf → Except SyncError (List Nat)
  write_file : PathBuf → List Nat → Except SyncError Unit

/-- The path resolution performed identically at `src/pull.rs` lines 13-17
and `src/push.rs` lines 16-20: an absolute entry path is used unchanged, a
relative one is joined onto the run working directory.  The definition takes
no notion of a process current directory: resolution depends only on
`working_path` and the entry path. -/
def resolve_path (working_path : PathBuf) (path : PathBuf) : PathBuf :=
  if path.is_absolute then path else working_path.join path

/-- `pull_secret_file` from `src/pull.rs` lines 5-23: fetch the secret, then
resolve the path and write the secret bytes, recording the capability calls
made. -/
def pull_secret_file (env : SyncEnv) (working_path : PathBuf) (file : SecretFile) :
    Except SyncError Unit × List Call :=
  match env.get_secret file.secret with
  | .error e => (.error e, [.get_secret file.secret])
  | .ok value =>
    let file_path := resolve_path working_path file.path
    match env.write_file file_path value.as_bytes with
    | .error e => (.error e, [.get_secret file.secret, .write_file file_path value.as_bytes])
    | .ok _ => (.ok (), [.get_secret file.secret, .write_file file_path value.as_bytes])

/-- `pull_secret_files` from `src/pull.rs` lines 26-37: the sequential loop
with `?`-propagation, i.e. early return on the first failing entry. -/
def pull_secret_files (env : SyncEnv) (working_path : PathBuf) :
    List SecretFile → Except SyncError Unit × List Call
  | [] => (.ok (), [])
  | file :: files =>
    match pull_secret_file env working_path file with
    | (.error e, trace) => (.error e, trace)
    | (.ok _, trace) =>
      let rest := pull_secret_files env working_path files
      (rest.1, trace ++ rest.2)

/-- `push_secret_file` from `src/push.rs` lines 10-35: resolve the path,
read the file, classify the bytes, and store the secret, annotating a store
failure with the context string. -/
def push_secret_file (env : SyncEnv) (working_path : PathBuf) (file : SecretFile) :
    Except SyncError Unit × List Call :=
  let file_path := resolve_path working_path file.path
  match env.read_file file_path with
  | .error e => (.error e, [.read_file file_path])
  | .ok value =>
    let secret_value := secretOfFileBytes value
    match env.set_secret file.secret secret_value file.metadata with
    | .error e =>
      (.error (.context "failed to store secret" e),
       [.read_file file_path, .set_secret file.secret secret_value file.metadata])
    | .ok _ =>
      (.ok (), [.read_file file_path, .set_secret file.secret secret_value file.metadata])

/-- `push_secret_files` from `src/push.rs` lines 38-49: the sequential loop
with `?`-propagation. -/
def push_secret_files (env : SyncEnv) (working_path : PathBuf) :
    List SecretFile → Except SyncError Unit × List Call
  | [] => (.ok (), [])
  | file :: files =>
    match push_secret_file env working_path file with
    | (.error e, trace) => (.error e, trace)
    | (.ok _, trace) =>
      let rest := push_secret_files env working_path files
      (rest.1, trace ++ rest.2)

/-- The target filter from `src/main.rs` lines 71-80: optional list of entry
names and optional list of glob patterns. -/
structure TargetFilter where
  file : Option (List String)
  glob : Option (List String)
deriving DecidableEq, Repr

/-- `filter_files` from `src/main.rs` lines 347-374, parameterized by the
external `fast_glob::glob_match` function (`glob_match pattern name`).  An
entry is kept when both filter fields are `None`, or when its name is
contained in the name list or matches some glob pattern. -/
def filter_files (glob_match : String → String → Bool)
    (files : List (String × SecretFile)) (filter : TargetFilter) : List SecretFile :=
  (files.filter (fun p =>
    if filter.file.isNone && filter.glob.isNone then true
    else
      let name_matches := filter.file.any (fun file_names => file_names.contains p.1)
      let glob_matches := filter.glob.any (fun globs => globs.any (fun g => glob_match g p.1))
      name_matches || glob_matches)).map Prod.snd

/-- Error conditions of the AWS Secrets Manager API as distinguished by the
code: the already-exists service exception (`is_resource_exists_exception`),
the not-found service exception (`is_resource_not_found_exception`), and any
other SDK failure carrying a message. -/
inductive AwsApiError where
  | resourceExists
  | resourceNotFound
  | other (msg : String)
deriving DecidableEq, Repr

/-- The message a wrapped SDK error renders to (`eyre::Report::new(error)`). -/
def AwsApiError.render : AwsApiError → String
  | .resourceExists => "ResourceExistsException"
  | .resourceNotFound => "ResourceNotFoundException"
  | .other msg => msg

/-- An AWS tag as built at `src/secret/aws.rs` lines 110-114
(`Tag::builder().key(key).value(value).build()`). -/
structure Tag where
  key : String
  value : String
deriving DecidableEq, Repr

/-- The tag list built from metadata at `src/secret/aws.rs` lines 110-114. -/
def SecretMetadata.awsTags (m : SecretMetadata) : Option (List Tag) :=
  m.tags.map (fun tags => tags.map (fun kv => { key := kv.1, value := kv.2 }))

/-- The split of a secret value into the request fields
`(secret_binary, secret_string)` at `src/secret/aws.rs` lines 105-108. -/
def secretToFields : Secret → Option (List Nat) × Option (List Nat)
  | .String value => (none, some value)
  | .Binary items => (some items, none)

/-- A recorded request against the AWS Secrets Manager API.  The
`update_secret` constructor has exactly the fields the source sets on the
update request (`src/secret/aws.rs` lines 138-143): the value fields and the
secret id — no description, no tags. -/
inductive AwsCall where
  | create_secret (name : String) (secret_binary : Option (List Nat))
      (secret_string : Option (List Nat)) (description : Option String)
      (tags : Option (List Tag))
  | update_secret (name : String) (secret_binary : Option (List Nat))
      (secret_string : Option (List Nat))
deriving DecidableEq, Repr

/-- The AWS Secrets Manager client as a record of state-transition functions
over an abstract backend state `σ`: `create_secret` and `update_secret`
either produce a new state or fail with an API error. -/
structure AwsApi (σ : Type) where
  create_secret : σ → String → Option (List Nat) → Option (List Nat) →
    Option String → Option (List Tag) → Except AwsApiError σ
  update_secret : σ → String → Option (List Nat) → Option (List Nat) →
    Except AwsApiError σ

/-- `AwsSecretManager::set_secret` from `src/secret/aws.rs` lines 99-155:
attempt `create_secret` carrying the value fields, the description and the
tags; if and only if that fails with the already-exists service exception,
fall back to `update_secret` carrying only the value fields; any other
creation failure is wrapped into a report and surfaced. -/
def AwsSecretManager.set_secret {σ : Type} (api : AwsApi σ) (st : σ)
    (name : String) (value : Secret) (metadata : SecretMetadata) :
    Except SyncError σ × List AwsCall :=
  let fields := secretToFields value
  let secret_binary := fields.1
  let secret_string := fields.2
  let tags := metadata.awsTags
  let createCall := AwsCall.create_secret name secret_binary secret_string
    metadata.description tags
  match api.create_secret st name secret_binary secret_string metadata.description tags with
  | .ok st2 => (.ok st2, [createCall])
  | .error error =>
    if error = .resourceExists then
      match api.update_secret st name secret_binary secret_string with
      | .ok st2 =>
        (.ok st2, [createCall, .update_secret name secret_binary secret_string])
      | .error e2 =>
        (.error (.context "failed to update secret" (.report e2.render)),
         [createCall, .update_secret name secret_binary secret_string])
    else
      (.error (.report error.render), [createCall])

/-- The response payload of `GetSecretValue` as read at
`src/secret/aws.rs` lines 88-96: an optional string field and an optional
binary field. -/
structure GetSecretValueOutput where
  secret_string : Option (List Nat)
  secret_binary : Option (List Nat)
deriving DecidableEq, Repr

/-- `AwsSecretManager::get_secret` from `src/secret/aws.rs` lines 72-97,
parameterized by the outcome of the `GetSecretValue` request: the
distinguished not-found service exception becomes the dedicated not-found
error naming the secret, any other request failure is wrapped; on success the
string field takes precedence, then the binary field, and a response carrying
neither is an error. -/
def AwsSecretManager.get_secret (send_result : Except AwsApiError GetSecretValueOutput)
    (name : String) : Except SyncError Secret :=
  match send_result with
  | .error error =>
    if error = .resourceNotFound then
      .error (.notFound ("secret \"" ++ name ++ "\" not found"))
    else
      .error (.report error.render)
  | .ok result =>
    match result.secret_string with
    | some value => .ok (.String value)
    | none =>
      match result.secret_binary with
      | some value => .ok (.Binary value)
      | none => .error (.message ("no valid secret found for \"" ++ name ++ "\" "))

/-- A secret as held by the backend: the two value fields plus the creation
metadata. -/
structure StoredSecret where
  secret_string : Option (List Nat)
  secret_binary : Option (List Nat)
  description : Option String
  tags : Option (List Tag)
deriving DecidableEq, Repr

/-- The backend's secret table. -/
abbrev AwsStore := List (String × StoredSecret)

/-- Lookup of a secret by name in the backend table. -/
def storeFind : AwsStore → String → Option StoredSecret
  | [], _ => none
  | (k, v) :: rest, name => if k = name then some v else storeFind rest name

/-- Modelled from the spec: the AWS Secrets Manager service behind the SDK
client is not part of this repository.  Following spec sections 3 and 4.1,
`CreateSecret` fails with the distinguished already-exists condition exactly
when the name is already present and otherwise stores the value together
with the description and tags, while `UpdateSecret` replaces only the value
fields of an existing secret, leaving description and tags untouched
(metadata is attached only at creation time). -/
def awsServer : AwsApi AwsStore where
  create_secret st name secret_binary secret_string description tags :=
    match storeFind st name with
    | some _ => .error .resourceExists
    | none =>
      .ok ((name, { secret_string := secret_string, secret_binary := secret_binary,
                    description := description, tags := tags }) :: st)
  update_secret st name secret_binary secret_string :=
    match storeFind st name with
    | none => .error .resourceNotFound
    | some old =>
      .ok (st.map (fun p =>
        if p.1 = name then
          (p.1, { old with secret_string := secret_string, secret_binary := secret_binary })
        else p))

/-- Modelled from the spec: the service side of `GetSecretValue` — the
request fails with the distinguished not-found condition exactly when the
name is absent, and otherwise returns the stored value fields. -/
def awsGetSecretValue (st : AwsStore) (name : String) :
    Except AwsApiError GetSecretValueOutput :=
  match storeFind st name with
  | some r => .ok { secret_string := r.secret_string, secret_binary := r.secret_binary }
  | none => .error .resourceNotFound

/-- The capability environment of a pull run against the AWS-backed store:
`get_secret` is the composition of `AwsSecretManager::get_secret` with the
service model, `write_file` is the given file capability.  The pull engine
never touches `set_secret` or `read_file` (`src/pull.rs` uses only get and
write), so those fields are inert. -/
def awsPullEnv (st : AwsStore) (wf : PathBuf → List Nat → Except SyncError Unit) :
    SyncEnv where
  get_secret name := AwsSecretManager.get_secret (awsGetSecretValue st name) name
  set_secret _ _ _ := .error (.message "set_secret is not used by the pull engine")
  read_file _ := .error (.message "read_file is not used by the pull engine")
  write_file := wf

/-- The host filesystem operations used by `RealFs::write_file`
(`src/fs/real.rs`): existence check, recursive directory creation, and the
raw write. -/
structure HostFs where
  path_exists : PathBuf → Bool
  create_dir_all : PathBuf → Except SyncError Unit
  fs_write : PathBuf → List Nat → Except SyncError Unit

/-- A recorded invocation against the host filesystem. -/
inductive FsCall where
  | create_dir_all (path : PathBuf)
  | fs_write (path : PathBuf) (bytes : List Nat)
deriving DecidableEq, Repr

/-- `RealFs::write_file` from `src/fs/real.rs` lines 27-47: determine the
parent path (failing with the dedicated message when there is none), create
the parent directory tree when it does not exist (failing with context when
creation fails), then write the file (failing with context when the write
fails). -/
def RealFs.write_file (host : HostFs) (path : PathBuf) (bytes : List Nat) :
    Except SyncError Unit × List FsCall :=
  match path.parent with
  | none => (.error (.message "file parent path does not exist"), [])
  | some parent_path =>
    if host.path_exists parent_path then
      match host.fs_write path bytes with
      | .error e => (.error (.context "failed to write secret to file" e), [.fs_write path bytes])
      | .ok _ => (.ok (), [.fs_write path bytes])
    else
      match host.create_dir_all parent_path with
      | .error e =>
        (.error (.context "failed to create parent directory for secret file" e),
         [.create_dir_all parent_path])
      | .ok _ =>
        match host.fs_write path bytes with
        | .error e =>
          (.error (.context "failed to write secret to file" e),
           [.create_dir_all parent_path, .fs_write path bytes])
        | .ok _ => (.ok (), [.create_dir_all parent_path, .fs_write path bytes])

/-- C10: classifying file bytes as Text (valid UTF-8) or Binary and then
converting the resulting secret to the transmitted request fields is the
identity on the bytes: the string field carries exactly the original bytes
for valid UTF-8, the binary field carries exactly the original bytes
otherwise, and in both cases the populated field holds the original byte
sequence, so classification never alters the value sent to the backend. -/
theorem classification_preserves_bytes (bytes : List Nat) :
    secretToFields (secretOfFileBytes bytes) =
      (if isValidUtf8 bytes then ((none : Option (List Nat)), some bytes)
       else (some bytes, none))
  ∧ ((secretToFields (secretOfFileBytes bytes)).2.getD
       ((secretToFields (secretOfFileBytes bytes)).1.getD []) = bytes) := by
  cases hv : isValidUtf8 bytes <;>
    simp [secretOfFileBytes, secretToFields, hv]

/-- C5: a successful get returns exactly one of Text or Binary, and when the
backend response carries both a string and a binary representation the
string (Text) one is returned; with only a binary field Binary is returned,
and with neither the get fails. -/
theorem get_secret_text_precedence (name : String) (result : GetSecretValueOutput) :
    (∀ s, result.secret_string = some s →
       AwsSecretManager.get_secret (.ok result) name = .ok (.String s))
  ∧ (result.secret_string = none → ∀ b, result.secret_binary = some b →
       AwsSecretManager.get_secret (.ok result) name = .ok (.Binary b))
  ∧ (result.secret_string = none → result.secret_binary = none →
       AwsSecretManager.get_secret (.ok result) name =
         .error (.message ("no valid secret found for \"" ++ name ++ "\" ")))
  ∧ (∀ v, AwsSecretManager.get_secret (.ok result) name = .ok v →
       (∃ s, v = .String s) ∨ (∃ b, v = .Binary b)) := by
  obtain ⟨ss, sb⟩ := result
  refine ⟨?_, ?_, ?_, ?_⟩
  · intro s hs
    cases hs
    simp [AwsSecretManager.get_secret]
  · intro hs b hb
    cases hs
    cases hb
    simp [AwsSecretManager.get_secret]
  · intro hs hb
    cases hs
    cases hb
    simp [AwsSecretManager.get_secret]
  · intro v _
    cases v with
    | String s => exact Or.inl ⟨s, rfl⟩
    | Binary b => exact Or.inr ⟨b, rfl⟩

/-- Witness for C5: a response carrying both representations yields Text. -/
theorem get_secret_text_precedence_witness :
    AwsSecretManager.get_secret (.ok ⟨some [97], some [98]⟩) "both" = .ok (.String [97]) :=
  (get_secret_text_precedence "both" ⟨some [97], some [98]⟩).1 [97] rfl

/-- C6: both engines resolve the entry path by joining it onto the run
working directory when it is relative and use it unchanged when it is
absolute; the resolution function has no access to a process current
directory, and the engines direct their file read and write at exactly the
resolved path. -/
theorem resolve_path_spec (env : SyncEnv) (w : PathBuf) (file : SecretFile) :
    (file.path.is_absolute = true → resolve_path w file.path = file.path)
  ∧ (file.path.is_absolute = false → resolve_path w file.path = PathBuf.join w file.path)
  ∧ (push_secret_file env w file).2.head? = some (.read_file (resolve_path w file.path))
  ∧ (∀ value, env.get_secret file.secret = .ok value →
      (pull_secret_file env w file).2 =
        [.get_secret file.secret, .write_file (resolve_path w file.path) value.as_bytes]) := by
  refine ⟨?_, ?_, ?_, ?_⟩
  · intro h
    simp [resolve_path, h]
  · intro h
    simp [resolve_path, h]
  · cases hr : env.read_file (resolve_path w file.path) with
    | error e => simp [push_secret_file, hr]
    | ok value =>
      cases hs : env.set_secret file.secret (secretOfFileBytes value) file.metadata <;>
        simp [push_secret_file, hr, hs]
  · intro value hv
    cases hw : env.write_file (resolve_path w file.path) value.as_bytes <;>
      simp [pull_secret_file, hv, hw]

/-- A capability environment whose operations all succeed, used to evaluate
the engines on concrete entries. -/
def plainEnv : SyncEnv where
  get_secret _ := .ok (.String [104])
  set_secret _ _ _ := .ok ()
  read_file _ := .ok [104]
  write_file _ _ := .ok ()

/-- A concrete run working directory. -/
def demoRoot : PathBuf := ⟨true, []⟩

/-- A concrete entry with a relative path. -/
def fileA : SecretFile := ⟨⟨false, ["a.env"]⟩, "a", ⟨none, none⟩⟩

/-- Witness for C6: a relative path is joined onto the working directory, an
absolute path is used unchanged, and the pull engine writes at the resolved
path. -/
theorem resolve_path_spec_witness :
    resolve_path demoRoot ⟨false, ["a.env"]⟩ = PathBuf.join demoRoot ⟨false, ["a.env"]⟩
  ∧ resolve_path demoRoot ⟨true, ["abs.env"]⟩ = ⟨true, ["abs.env"]⟩
  ∧ (pull_secret_file plainEnv demoRoot fileA).2 =
      [.get_secret "a", .write_file ⟨true, ["a.env"]⟩ [104]] := by
  refine ⟨?_, ?_, ?_⟩
  · exact (resolve_path_spec plainEnv demoRoot fileA).2.1 rfl
  · exact (resolve_path_spec plainEnv demoRoot ⟨⟨true, ["abs.env"]⟩, "a", ⟨none, none⟩⟩).1 rfl
  · exact ((resolve_path_spec plainEnv demoRoot fileA).2.2.2 (.String [104]) rfl).trans (by rfl)

/-- C9: the file-store write determines the parent path, failing with the
dedicated message (and performing no host call) when it cannot be determined
(a root path or an empty relative path); when the parent is absent it is
created before the write, a creation failure is surfaced with context and
prevents the write, and when the parent already exists no creation call is
made. -/
theorem write_file_parent_creation (host : HostFs) (path : PathBuf) (bytes : List Nat) :
    (path.parent = none →
       RealFs.write_file host path bytes =
         (.error (.message "file parent path does not exist"), []))
  ∧ (∀ pp, path.parent = some pp → host.path_exists pp = false →
       (∀ e, host.create_dir_all pp = .error e →
          RealFs.write_file host path bytes =
            (.error (.context "failed to create parent directory for secret file" e),
             [.create_dir_all pp]))
       ∧ (host.create_dir_all pp = .ok () →
          (RealFs.write_file host path bytes).2 = [.create_dir_all pp, .fs_write path bytes]))
  ∧ (∀ pp, path.parent = some pp → host.path_exists pp = true →
       (RealFs.write_file host path bytes).2 = [.fs_write path bytes]) := by
  refine ⟨?_, ?_, ?_⟩
  · intro h
    simp [RealFs.write_file, h]
  · intro pp hpp hex
    constructor
    · intro e he
      simp [RealFs.write_file, hpp, hex, he]
    · intro hc
      cases hw : host.fs_write path bytes <;>
        simp [RealFs.write_file, hpp, hex, hc, hw]
  · intro pp hpp hex
    cases hw : host.fs_write path bytes <;>
      simp [RealFs.write_file, hpp, hex, hw]

/-- A host filesystem on which every operation succeeds and no directory
exists yet. -/
def hostFresh : HostFs where
  path_exists _ := false
  create_dir_all _ := .ok ()
  fs_write _ _ := .ok ()

/-- A host filesystem on which directory creation fails. -/
def hostNoDir : HostFs where
  path_exists _ := false
  create_dir_all _ := .error (.report "permission denied")
  fs_write _ _ := .ok ()

/-- Witness for C9: a root path fails with the dedicated message; an absent
parent is created before the write; a failing creation is surfaced with
context and no write happens. -/
theorem write_file_parent_creation_witness :
    RealFs.write_file hostFresh ⟨true, []⟩ [1] =
      (.error (.message "file parent path does not exist"), [])
  ∧ (RealFs.write_file hostFresh ⟨true, ["d", "f"]⟩ [1]).2 =
      [.create_dir_all ⟨true, ["d"]⟩, .fs_write ⟨true, ["d", "f"]⟩ [1]]
  ∧ RealFs.write_file hostNoDir ⟨true, ["d", "f"]⟩ [1] =
      (.error (.context "failed to create parent directory for secret file"
                 (.report "permission denied")),
       [.create_dir_all ⟨true, ["d"]⟩]) := by
  refine ⟨?_, ?_, ?_⟩
  · exact (write_file_parent_creation hostFresh ⟨true, []⟩ [1]).1 rfl
  · exact ((write_file_parent_creation hostFresh ⟨true, ["d", "f"]⟩ [1]).2.1
      ⟨true, ["d"]⟩ rfl rfl).2 rfl
  · exact ((write_file_parent_creation hostNoDir ⟨true, ["d", "f"]⟩ [1]).2.1
      ⟨true, ["d"]⟩ rfl rfl).1 (.report "permission denied") rfl

/-- C1: the upsert always issues the creation request first, carrying the
value fields together with the metadata description and tags; the update
request is issued if and only if creation failed with the distinguished
already-exists condition, and it carries only the value fields; any other
creation failure is surfaced without an update; and against the modelled
backend, pushing the same name twice from an absent state leaves the
description and tags exactly as the first push sent them. -/
theorem set_secret_upsert_protocol {σ : Type} (api : AwsApi σ) (st : σ)
    (name : String) (value : Secret) (metadata : SecretMetadata) :
    (AwsSecretManager.set_secret api st name value metadata).2.head? =
      some (.create_secret name (secretToFields value).1 (secretToFields value).2
              metadata.description metadata.awsTags)
  ∧ ((api.create_secret st name (secretToFields value).1 (secretToFields value).2
        metadata.description metadata.awsTags = .error .resourceExists) ↔
      (AwsSecretManager.set_secret api st name value metadata).2 =
        [.create_secret name (secretToFields value).1 (secretToFields value).2
           metadata.description metadata.awsTags,
         .update_secret name (secretToFields value).1 (secretToFields value).2])
  ∧ (∀ e, api.create_secret st name (secretToFields value).1 (secretToFields value).2
        metadata.description metadata.awsTags = .error e → e ≠ .resourceExists →
      (AwsSecretManager.set_secret api st name value metadata).1 = .error (.report e.render)
      ∧ (AwsSecretManager.set_secret api st name value metadata).2 =
          [.create_secret name (secretToFields value).1 (secretToFields value).2
             metadata.description metadata.awsTags])
  ∧ (∀ (st0 : AwsStore) (n : String) (v1 v2 : Secret) (m1 m2 : SecretMetadata)
        (st1 st2 : AwsStore),
      storeFind st0 n = none →
      (AwsSecretManager.set_secret awsServer st0 n v1 m1).1 = .ok st1 →
      (AwsSecretManager.set_secret awsServer st1 n v2 m2).1 = .ok st2 →
      ∃ stored, storeFind st2 n = some stored ∧
        stored.description = m1.description ∧ stored.tags = m1.awsTags) := by
  refine ⟨?_, ?_, ?_, ?_⟩
  · cases hc : api.create_secret st name (secretToFields value).1 (secretToFields value).2
        metadata.description metadata.awsTags with
    | ok st2 => simp [AwsSecretManager.set_secret, hc]
    | error e =>
      by_cases he : e = .resourceExists
      · subst he
        cases hu : api.update_secret st name (secretToFields value).1 (secretToFields value).2 <;>
          simp [AwsSecretManager.set_secret, hc, hu]
      · simp [AwsSecretManager.set_secret, hc, he]
  · constructor
    · intro h
      cases hu : api.update_secret st name (secretToFields value).1 (secretToFields value).2 <;>
        simp [AwsSecretManager.set_secret, h, hu]
    · intro h
      cases hc : api.create_secret st name (secretToFields value).1 (secretToFields value).2
          metadata.description metadata.awsTags with
      | ok st2 =>
        exfalso
        simp [AwsSecretManager.set_secret, hc] at h
      | error e =>
        by_cases he : e = .resourceExists
        · rw [he]
        · exfalso
          simp [AwsSecretManager.set_secret, hc, he] at h
  · intro e hce hne
    refine ⟨?_, ?_⟩ <;> simp [AwsSecretManager.set_secret, hce, hne]
  · intro st0 n v1 v2 m1 m2 st1 st2 h0 h1 h2
    have e1 : (AwsSecretManager.set_secret awsServer st0 n v1 m1).1 =
        .ok ((n, { secret_string := (secretToFields v1).2,
                   secret_binary := (secretToFields v1).1,
                   description := m1.description, tags := m1.awsTags }) :: st0) := by
      simp [AwsSecretManager.set_secret, awsServer, h0]
    rw [e1] at h1
    have hst1 : st1 = (n, { secret_string := (secretToFields v1).2,
                            secret_binary := (secretToFields v1).1,
                            description := m1.description, tags := m1.awsTags }) :: st0 :=
      (Except.ok.inj h1).symm
    subst hst1
    have e2 : (AwsSecretManager.set_secret awsServer
        ((n, { secret_string := (secretToFields v1).2,
               secret_binary := (secretToFields v1).1,
               description := m1.description, tags := m1.awsTags }) :: st0) n v2 m2).1 =
        .ok ((n, { secret_string := (secretToFields v2).2,
                   secret_binary := (secretToFields v2).1,
                   description := m1.description, tags := m1.awsTags }) ::
             st0.map (fun p =>
               if p.1 = n then
                 (p.1, { secret_string := (secretToFields v2).2,
                         secret_binary := (secretToFields v2).1,
                         description := m1.description, tags := m1.awsTags })
               else p)) := by
      simp [AwsSecretManager.set_secret, awsServer, storeFind]
    rw [e2] at h2
    have hst2 := (Except.ok.inj h2).symm
    subst hst2
    exact ⟨{ secret_string := (secretToFields v2).2, secret_binary := (secretToFields v2).1,
             description := m1.description, tags := m1.awsTags },
           by simp [storeFind], rfl, rfl⟩

/-- The backend state after a first push of secret `db` with metadata. -/
def upsertStore1 : AwsStore :=
  [("db", { secret_string := some [104], secret_binary := none,
            description := some "first", tags := some [{ key := "team", value := "core" }] })]

/-- The backend state after a second push of secret `db` with different
metadata: the value changed, the metadata did not. -/
def upsertStore2 : AwsStore :=
  [("db", { secret_string := some [105], secret_binary := none,
            description := some "first", tags := some [{ key := "team", value := "core" }] })]

/-- Witness for C1: the first recorded request of an upsert is the creation
request carrying description and tags, and after two pushes of the same name
with different metadata the stored metadata is the first push's. -/
theorem set_secret_upsert_protocol_witness :
    (AwsSecretManager.set_secret awsServer ([] : AwsStore) "db" (.String [104])
        ⟨some "first", some [("team", "core")]⟩).2.head? =
      some (.create_secret "db" none (some [104]) (some "first")
              (some [{ key := "team", value := "core" }]))
  ∧ (∃ stored, storeFind upsertStore2 "db" = some stored ∧
      stored.description = some "first" ∧
      stored.tags = some [{ key := "team", value := "core" }]) := by
  constructor
  · exact (set_secret_upsert_protocol awsServer ([] : AwsStore) "db" (.String [104])
      ⟨some "first", some [("team", "core")]⟩).1.trans (by rfl)
  · obtain ⟨stored, hf, hd, ht⟩ :=
      (set_secret_upsert_protocol awsServer ([] : AwsStore) "db" (.String [104])
        ⟨some "first", some [("team", "core")]⟩).2.2.2
        [] "db" (.String [104]) (.String [105])
        ⟨some "first", some [("team", "core")]⟩ ⟨some "second", none⟩
        upsertStore1 upsertStore2 rfl (by rfl) (by rfl)
    exact ⟨stored, hf, hd.trans (by rfl), ht.trans (by rfl)⟩

/-- When every entry of a list pulls successfully, the batch pull succeeds
and its call trace is the concatenation of the per-entry traces in order. -/
lemma pull_files_ok_trace (env : SyncEnv) (w : PathBuf) :
    ∀ es : List SecretFile, (∀ f ∈ es, (pull_secret_file env w f).1 = .ok ()) →
    pull_secret_files env w es =
      (.ok (), (es.map (fun f => (pull_secret_file env w f).2)).flatten) := by
  intro es
  induction es with
  | nil =>
    intro _
    simp [pull_secret_files]
  | cons f fs ih =>
    intro h
    have hf := h f (by simp)
    have hrest := ih (fun x hx => h x (by simp [hx]))
    cases hp : pull_secret_file env w f with
    | mk r t =>
      have hr : r = .ok () := by rw [hp] at hf; exact hf
      subst hr
      simp [pull_secret_files, hp, hrest]

/-- When a prefix pulls successfully and the next entry fails, the batch pull
stops there: it returns that failure and its call trace is the prefix's
traces followed by the failing entry's trace — the remaining entries
contribute no calls at all. -/
lemma pull_files_fail_trace (env : SyncEnv) (w : PathBuf) (e : SyncError)
    (f : SecretFile) (ys : List SecretFile) :
    ∀ xs : List SecretFile, (∀ x ∈ xs, (pull_secret_file env w x).1 = .ok ()) →
    (pull_secret_file env w f).1 = .error e →
    pull_secret_files env w (xs ++ f :: ys) =
      (.error e, (xs.map (fun x => (pull_secret_file env w x).2)).flatten ++
                 (pull_secret_file env w f).2) := by
  intro xs
  induction xs with
  | nil =>
    intro _ hf
    cases hp : pull_secret_file env w f with
    | mk r t =>
      have hr : r = .error e := by rw [hp] at hf; exact hf
      subst hr
      simp [pull_secret_files, hp]
  | cons x xs ih =>
    intro h hf
    have hx := h x (by simp)
    cases hp : pull_secret_file env w x with
    | mk r t =>
      have hr : r = .ok () := by rw [hp] at hx; exact hx
      subst hr
      have hrec := ih (fun y hy => h y (by simp [hy])) hf
      simp [pull_secret_files, hp, hrec]

/-- Push analogue of the all-successful trace lemma. -/
lemma push_files_ok_trace (env : SyncEnv) (w : PathBuf) :
    ∀ es : List SecretFile, (∀ f ∈ es, (push_secret_file env w f).1 = .ok ()) →
    push_secret_files env w es =
      (.ok (), (es.map (fun f => (push_secret_file env w f).2)).flatten) := by
  intro es
  induction es with
  | nil =>
    intro _
    simp [push_secret_files]
  | cons f fs ih =>
    intro h
    have hf := h f (by simp)
    have hrest := ih (fun x hx => h x (by simp [hx]))
    cases hp : push_secret_file env w f with
    | mk r t =>
      have hr : r = .ok () := by rw [hp] at hf; exact hf
      subst hr
      simp [push_secret_files, hp, hrest]

/-- Push analogue of the fail-fast trace lemma. -/
lemma push_files_fail_trace (env : SyncEnv) (w : PathBuf) (e : SyncError)
    (f : SecretFile) (ys : List SecretFile) :
    ∀ xs : List SecretFile, (∀ x ∈ xs, (push_secret_file env w x).1 = .ok ()) →
    (push_secret_file env w f).1 = .error e →
    push_secret_files env w (xs ++ f :: ys) =
      (.error e, (xs.map (fun x => (push_secret_file env w x).2)).flatten ++
                 (push_secret_file env w f).2) := by
  intro xs
  induction xs with
  | nil =>
    intro _ hf
    cases hp : push_secret_file env w f with
    | mk r t =>
      have hr : r = .error e := by rw [hp] at hf; exact hf
      subst hr
      simp [push_secret_files, hp]
  | cons x xs ih =>
    intro h hf
    have hx := h x (by simp)
    cases hp : push_secret_file env w x with
    | mk r t =>
      have hr : r = .ok () := by rw [hp] at hx; exact hx
      subst hr
      have hrec := ih (fun y hy => h y (by simp [hy])) hf
      simp [push_secret_files, hp, hrec]

/-- C2: the batch pull and push process entries sequentially in the given
order — on an all-successful list the call trace is exactly the in-order
concatenation of the per-entry traces — and they stop at the first failing
entry, returning its error with a trace ending at that entry, so the entries
after the failing one cause zero invocations against the store or file
capabilities. -/
theorem sync_files_sequential_fail_fast (env : SyncEnv) (w : PathBuf)
    (xs ys : List SecretFile) (f : SecretFile) (e1 e2 : SyncError) :
    ((∀ x ∈ xs, (pull_secret_file env w x).1 = .ok ()) →
      pull_secret_files env w xs =
        (.ok (), (xs.map (fun x => (pull_secret_file env w x).2)).flatten)
      ∧ ((pull_secret_file env w f).1 = .error e1 →
          pull_secret_files env w (xs ++ f :: ys) =
            (.error e1, (xs.map (fun x => (pull_secret_file env w x).2)).flatten ++
                        (pull_secret_file env w f).2)))
  ∧ ((∀ x ∈ xs, (push_secret_file env w x).1 = .ok ()) →
      push_secret_files env w xs =
        (.ok (), (xs.map (fun x => (push_secret_file env w x).2)).flatten)
      ∧ ((push_secret_file env w f).1 = .error e2 →
          push_secret_files env w (xs ++ f :: ys) =
            (.error e2, (xs.map (fun x => (push_secret_file env w x).2)).flatten ++
                        (push_secret_file env w f).2))) :=
  ⟨fun h => ⟨pull_files_ok_trace env w xs h,
             fun hf => pull_files_fail_trace env w e1 f ys xs h hf⟩,
   fun h => ⟨push_files_ok_trace env w xs h,
             fun hf => push_files_fail_trace env w e2 f ys xs h hf⟩⟩

/-- A capability environment on which exactly the secret named `bad` fails,
for both get and set. -/
def demoEnv : SyncEnv where
  get_secret name := if name = "bad" then .error (.report "boom") else .ok (.String [97])
  set_secret name _ _ := if name = "bad" then .error (.report "boom") else .ok ()
  read_file _ := .ok [97]
  write_file _ _ := .ok ()

/-- A concrete entry whose secret fails on `demoEnv`. -/
def fileBad : SecretFile := ⟨⟨false, ["bad.env"]⟩, "bad", ⟨none, none⟩⟩

/-- A concrete entry after the failing one. -/
def fileC : SecretFile := ⟨⟨false, ["c.env"]⟩, "c", ⟨none, none⟩⟩

/-- Witness for C2: with entries `[fileA, fileBad, fileC]` where the second
fails, both batch operations return the failure and their traces contain the
first entry's calls in order, then the failing entry's calls, and nothing
for the third entry. -/
theorem sync_files_sequential_fail_fast_witness :
    pull_secret_files demoEnv demoRoot [fileA, fileBad, fileC] =
      (.error (.report "boom"),
       [.get_secret "a", .write_file ⟨true, ["a.env"]⟩ [97], .get_secret "bad"])
  ∧ push_secret_files demoEnv demoRoot [fileA, fileBad, fileC] =
      (.error (.context "failed to store secret" (.report "boom")),
       [.read_file ⟨true, ["a.env"]⟩, .set_secret "a" (.String [97]) ⟨none, none⟩,
        .read_file ⟨true, ["bad.env"]⟩, .set_secret "bad" (.String [97]) ⟨none, none⟩]) := by
  constructor
  · have h := ((sync_files_sequential_fail_fast demoEnv demoRoot [fileA] [fileC] fileBad
      (.report "boom") (.context "failed to store secret" (.report "boom"))).1
      (by decide)).2 (by decide)
    exact h.trans (by decide)
  · have h := ((sync_files_sequential_fail_fast demoEnv demoRoot [fileA] [fileC] fileBad
      (.report "boom") (.context "failed to store secret" (.report "boom"))).2
      (by decide)).2 (by decide)
    exact h.trans (by decide)

/-- C3: for an entry whose file contents are valid UTF-8 bytes, the push
classifies them as Text carrying exactly those bytes and stores that value;
a subsequent pull of the same entry, with the store returning the pushed
value unchanged, writes exactly the original bytes at the entry's resolved
path. -/
theorem push_pull_round_trip (env1 env2 : SyncEnv) (w : PathBuf) (file : SecretFile)
    (bytes : List Nat) (hvalid : isValidUtf8 bytes = true)
    (hread : env1.read_file (resolve_path w file.path) = .ok bytes)
    (hstore : env2.get_secret file.secret = .ok (secretOfFileBytes bytes)) :
    (push_secret_file env1 w file).2 =
      [.read_file (resolve_path w file.path),
       .set_secret file.secret (.String bytes) file.metadata]
  ∧ (pull_secret_file env2 w file).2 =
      [.get_secret file.secret, .write_file (resolve_path w file.path) bytes] := by
  have hclass : secretOfFileBytes bytes = .String bytes := by
    simp [secretOfFileBytes, hvalid]
  constructor
  · rw [hclass] at hstore
    cases hs : env1.set_secret file.secret (.String bytes) file.metadata <;>
      simp [push_secret_file, hread, hclass, hs]
  · rw [hclass] at hstore
    cases hw : env2.write_file (resolve_path w file.path) bytes <;>
      simp [pull_secret_file, hstore, hw, Secret.as_bytes]

/-- A capability environment holding the bytes `[104, 105]` on both sides:
the file read returns them and the store returns the Text secret carrying
them. -/
def rtEnv : SyncEnv where
  get_secret _ := .ok (.String [104, 105])
  set_secret _ _ _ := .ok ()
  read_file _ := .ok [104, 105]
  write_file _ _ := .ok ()

/-- Witness for C3: pushing then pulling the valid UTF-8 bytes `[104, 105]`
stores Text with those bytes and writes back exactly those bytes. -/
theorem push_pull_round_trip_witness :
    (push_secret_file rtEnv demoRoot fileA).2 =
      [.read_file ⟨true, ["a.env"]⟩, .set_secret "a" (.String [104, 105]) ⟨none, none⟩]
  ∧ (pull_secret_file rtEnv demoRoot fileA).2 =
      [.get_secret "a", .write_file ⟨true, ["a.env"]⟩ [104, 105]] := by
  have h := push_pull_round_trip rtEnv rtEnv demoRoot fileA [104, 105]
    (by decide) rfl (by rfl)
  exact ⟨h.1.trans (by rfl), h.2.trans (by rfl)⟩

/-- C4: pulling an entry whose secret name is absent from the backend store
fails with the dedicated not-found error — produced by the branch on the
backend's distinguished not-found condition, not by the generic error path —
whose message contains the secret's name, and the trace shows no file write
for that entry. -/
theorem pull_not_found (st : AwsStore) (wf : PathBuf → List Nat → Except SyncError Unit)
    (w : PathBuf) (file : SecretFile) (habsent : storeFind st file.secret = none) :
    pull_secret_file (awsPullEnv st wf) w file =
      (.error (.notFound ("secret \"" ++ file.secret ++ "\" not found")),
       [.get_secret file.secret])
  ∧ (∃ a b, "secret \"" ++ file.secret ++ "\" not found" = a ++ file.secret ++ b)
  ∧ (∀ p bs, Call.write_file p bs ∉ (pull_secret_file (awsPullEnv st wf) w file).2) := by
  have hget : (awsPullEnv st wf).get_secret file.secret =
      .error (.notFound ("secret \"" ++ file.secret ++ "\" not found")) := by
    simp [awsPullEnv, awsGetSecretValue, habsent, AwsSecretManager.get_secret]
  have htrace : pull_secret_file (awsPullEnv st wf) w file =
      (.error (.notFound ("secret \"" ++ file.secret ++ "\" not found")),
       [.get_secret file.secret]) := by
    simp [pull_secret_file, hget]
  refine ⟨htrace, ⟨"secret \"", "\" not found", rfl⟩, ?_⟩
  intro p bs
  rw [htrace]
  simp

/-- Witness for C4: against an empty store, pulling the entry for secret `a`
fails with the not-found error naming `a` and performs no write call. -/
theorem pull_not_found_witness :
    pull_secret_file (awsPullEnv [] (fun _ _ => .ok ())) demoRoot fileA =
      (.error (.notFound "secret \"a\" not found"), [.get_secret "a"]) :=
  ((pull_not_found [] (fun _ _ => .ok ()) demoRoot fileA rfl).1).trans (by rfl)

/-- The selection predicate as the spec words it: an entry matches when its
name is in the filter's name list or matches at least one glob pattern (an
absent list contributing nothing).  This definition follows the spec's
words, to be compared with `filter_files`, which follows the source. -/
def specMatches (glob_match : String → String → Bool) (filter : TargetFilter)
    (name : String) : Bool :=
  (filter.file.getD []).contains name ||
    (filter.glob.getD []).any (fun g => glob_match g name)

/-- Counterexample for C7: a filter whose name list is present but empty and
whose glob list is absent is "both empty or absent" in the claim's words, so
the claim predicts every entry is returned; `filter_files` returns no entry,
under any glob matcher, because its all-match branch requires both fields to
be absent. -/
theorem filter_files_counterexample :
    filter_files (fun _ _ => false) [("a", fileA)] ⟨some [], none⟩ = []
  ∧ filter_files (fun _ _ => true) [("a", fileA)] ⟨some [], none⟩ = []
  ∧ ([] : List SecretFile) ≠ [fileA] := by
  refine ⟨rfl, rfl, by simp⟩

/-- C7 (amended): when both filter fields are absent every entry is
returned; when at least one field is present the returned entries are
exactly those whose name is in the name list or matches at least one glob
pattern (so a present-but-empty name list with no globs matches nothing);
and the result is always a sublist of the entries in their original
declaration order. -/
theorem filter_files_spec (gm : String → String → Bool)
    (files : List (String × SecretFile)) (flt : TargetFilter) :
    (flt.file = none → flt.glob = none → filter_files gm files flt = files.map Prod.snd)
  ∧ (¬ (flt.file = none ∧ flt.glob = none) →
      filter_files gm files flt =
        (files.filter (fun p => specMatches gm flt p.1)).map Prod.snd)
  ∧ List.Sublist (filter_files gm files flt) (files.map Prod.snd) := by
  refine ⟨?_, ?_, ?_⟩
  · intro h1 h2
    simp [filter_files, h1, h2]
  · intro hne
    obtain ⟨ff, fg⟩ := flt
    cases ff with
    | none =>
      cases fg with
      | none => exact absurd ⟨rfl, rfl⟩ hne
      | some gs => simp [filter_files, specMatches]
    | some ns =>
      cases fg with
      | none => simp [filter_files, specMatches]
      | some gs => simp [filter_files, specMatches]
  · exact (List.filter_sublist files).map Prod.snd

/-- Concrete entries matching the spec's filter example. -/
def fileB1 : SecretFile := ⟨⟨false, ["b1.env"]⟩, "b1s", ⟨none, none⟩⟩

/-- Second glob-matched entry of the filter example. -/
def fileB2 : SecretFile := ⟨⟨false, ["b2.env"]⟩, "b2s", ⟨none, none⟩⟩

/-- Witness for C7 (amended): with names `["a"]` and globs `["b*"]` against
entries `a, b1, b2, c` the selection returns `a, b1, b2` in declaration
order, and with no filter it returns every entry in order. -/
theorem filter_files_spec_witness :
    filter_files (fun g n => g == "b*" && (n == "b1" || n == "b2"))
      [("a", fileA), ("b1", fileB1), ("b2", fileB2), ("c", fileC)]
      ⟨some ["a"], some ["b*"]⟩ = [fileA, fileB1, fileB2]
  ∧ filter_files (fun g n => g == "b*" && (n == "b1" || n == "b2"))
      [("a", fileA), ("b1", fileB1), ("b2", fileB2), ("c", fileC)]
      ⟨none, none⟩ = [fileA, fileB1, fileB2, fileC] := by
  constructor
  · exact ((filter_files_spec (fun g n => g == "b*" && (n == "b1" || n == "b2"))
      [("a", fileA), ("b1", fileB1), ("b2", fileB2), ("c", fileC)]
      ⟨some ["a"], some ["b*"]⟩).2.1
      (fun h => Option.noConfusion h.1)).trans (by decide)
  · exact ((filter_files_spec (fun g n => g == "b*" && (n == "b1" || n == "b2"))
      [("a", fileA), ("b1", fileB1), ("b2", fileB2), ("c", fileC)]
      ⟨none, none⟩).1 rfl rfl).trans (by decide)

/-- A capability environment whose secret fetch always fails with a plain
backend error. -/
def failingPullEnv : SyncEnv where
  get_secret _ := .error (.report "connection reset")
  set_secret _ _ _ := .ok ()
  read_file _ := .ok []
  write_file _ _ := .ok ()

/-- Counterexample for C8: at this concrete input the per-entry pull
operation returns the store's error verbatim — no context annotation (such
as a "failed to retrieve secret" wrapper) is attached — refuting that every
per-entry engine error is annotated with operation context before being
returned. -/
theorem pull_error_annotation_counterexample :
    pull_secret_file failingPullEnv demoRoot fileA =
      (.error (.report "connection reset"), [.get_secret "a"])
  ∧ SyncError.isContext (.report "connection reset") = false :=
  ⟨rfl, rfl⟩

/-- C8 (amended): the push path annotates a store failure with the context
"failed to store secret" before returning it, while the pull path propagates
a fetch failure unchanged, without an engine-level annotation. -/
theorem error_annotation_spec (env : SyncEnv) (w : PathBuf) (file : SecretFile)
    (e : SyncError) :
    (∀ bytes, env.read_file (resolve_path w file.path) = .ok bytes →
       env.set_secret file.secret (secretOfFileBytes bytes) file.metadata = .error e →
       (push_secret_file env w file).1 = .error (.context "failed to store secret" e))
  ∧ (env.get_secret file.secret = .error e → (pull_secret_file env w file).1 = .error e) := by
  constructor
  · intro bytes hr hs
    simp [push_secret_file, hr, hs]
  · intro hg
    simp [pull_secret_file, hg]

/-- A capability environment whose store operations fail. -/
def failingStoreEnv : SyncEnv where
  get_secret _ := .error (.report "boom")
  set_secret _ _ _ := .error (.report "boom")
  read_file _ := .ok [97]
  write_file _ _ := .ok ()

/-- Witness for C8 (amended): a failing store makes push return the
context-wrapped error and pull return the raw error. -/
theorem error_annotation_spec_witness :
    (push_secret_file failingStoreEnv demoRoot fileA).1 =
      .error (.context "failed to store secret" (.report "boom"))
  ∧ (pull_secret_file failingStoreEnv demoRoot fileA).1 = .error (.report "boom") := by
  constructor
  · exact (error_annotation_spec failingStoreEnv demoRoot fileA (.report "boom")).1 [97] rfl rfl
  · exact (error_annotation_spec failingStoreEnv demoRoot fileA (.report "boom")).2 rfl
